import Mathlib

/-!
Verification of the NetworkMonitor repository's server-selection engine,
record store migration, probe parsers and scheduler wait loop.

The Python sources (network_monitor.py, network_monitor_windows.py,
server_optimizer.py) are shallowly embedded: machine floats become exact
rationals (ℚ), Python `round(x, 2)` becomes round-half-even on ℚ at two
decimals, fallible code returns Option, and effectful calls (subprocess
probes, file writes) are represented by explicit oracles and action traces.
-/

namespace NM

/-! ## Rounding: Python `round(x, 2)` (banker's rounding, half to even). -/

/-- Round a rational to the nearest integer, halves to the even neighbour.
Models Python's built-in `round` (round-half-even). -/
def roundHalfEven (q : ℚ) : ℤ :=
  if Int.fract q = 1 / 2 then
    (if Even ⌊q⌋ then ⌊q⌋ else ⌊q⌋ + 1)
  else ⌊q + 1 / 2⌋

/-- Models Python `round(q, 2)`: round to two decimal places. -/
def round2 (q : ℚ) : ℚ := ((roundHalfEven (q * 100) : ℤ) : ℚ) / 100

/-! ## Python list builtins used by the monitors. -/

/-- Python `min(l)` on a nonempty list (`0` on `[]`, where Python raises;
the monitors only call it on nonempty lists). -/
def pyMin : List ℚ → ℚ
  | [] => 0
  | x :: xs => xs.foldl min x

/-- Python `max(l)` on a nonempty list (`0` on `[]`, where Python raises). -/
def pyMax : List ℚ → ℚ
  | [] => 0
  | x :: xs => xs.foldl max x

/-- Python `statistics.mean(l)` = sum divided by length. -/
def pyMean (l : List ℚ) : ℚ := l.sum / l.length

/-! ## Python `list.sort(key=..., reverse=True)`.

Python's sort is guaranteed stable; with `reverse=True` it orders by
strictly descending key and keeps elements with equal keys in their
original relative order.  That function on lists is unique, and insertion
sort with the placement below computes exactly it, so it is a faithful
embedding of the call `test_results.sort(key=lambda x: x['score'],
reverse=True)`. -/

/-- Insert `x` (an element originally earlier than everything in `l`)
into the already descending-sorted `l`: `x` goes before the first element
whose key is `≤` its own, so equal keys keep original order. -/
def pyInsertDescBy (key : α → ℚ) (x : α) : List α → List α
  | [] => [x]
  | y :: ys => if key y ≤ key x then x :: y :: ys else y :: pyInsertDescBy key x ys

/-- Stable descending sort by `key`; extensionally equal to Python
`l.sort(key=key, reverse=True)`. -/
def pySortDescBy (key : α → ℚ) : List α → List α
  | [] => []
  | x :: xs => pyInsertDescBy key x (pySortDescBy key xs)

/-- Specification-side selector: the earliest element of the list that
attains the maximal key (None on the empty list). -/
def firstMaxBy (key : α → ℚ) : List α → Option α
  | [] => none
  | x :: xs =>
    match firstMaxBy key xs with
    | none => some x
    | some m => if key x < key m then some m else some x

/-! ## Ping output parsing (`NetworkMonitor.run_ping_test`, lines 449–519).

The function is modelled from the point where the probe's stdout has been
split into lines (`result.stdout.split('\n')`). -/

/-- Python substring test `pat in s` (for nonempty `pat`), via the fact
that `s.split(pat)` has at least two pieces exactly when `pat` occurs. -/
def containsSub (s pat : String) : Bool := 2 ≤ (s.splitOn pat).length

/-- Python `str.split()` with no argument: split on whitespace runs and
drop empty pieces (ping output separates tokens with single spaces). -/
def pySplitWs (s : String) : List String := (s.splitOn " ").filter (fun t => t ≠ "")

/-- Numeric value of a digit string (caller checks the digits). -/
def digitsToNat (cs : List Char) : ℕ := cs.foldl (fun a c => a * 10 + (c.toNat - 48)) 0

/-- Models Python `float(s)` on the plain decimal literals that appear in
ping output (optional sign, digits, optional fractional part); `none`
models the `ValueError` the source catches. -/
def pyFloat? (s : String) : Option ℚ :=
  let t := s.trim
  let sign : ℚ := if t.startsWith "-" then -1 else 1
  let body := if t.startsWith "-" then t.drop 1 else t
  match body.splitOn "." with
  | [intPart] =>
    if intPart.length ≠ 0 ∧ intPart.toList.all Char.isDigit then
      some (sign * (digitsToNat intPart.toList : ℚ))
    else none
  | [intPart, fracPart] =>
    if (intPart.length ≠ 0 ∨ fracPart.length ≠ 0)
        ∧ intPart.toList.all Char.isDigit ∧ fracPart.toList.all Char.isDigit then
      some (sign * ((digitsToNat intPart.toList : ℚ)
        + (digitsToNat fracPart.toList : ℚ) / (10 : ℚ) ^ fracPart.length))
    else none
  | _ => none

/-- One iteration of the latency loop: if `'time=' in line`, parse
`line.split('time=')[1].split()[0]` as a float; parse failures are
skipped (the `except: continue`). -/
def latencyOf? (line : String) : Option ℚ :=
  match line.splitOn "time=" with
  | _ :: timePart :: _ =>
    match (pySplitWs timePart).head? with
    | none => none
    | some tok => pyFloat? tok
  | _ => none

/-- The latency samples collected from the probe output. -/
def extractLatencies (lines : List String) : List ℚ := lines.filterMap latencyOf?

/-- `'packet loss' in line`. -/
def hasPacketLoss (line : String) : Bool := containsSub line "packet loss"

/-- Parse one candidate summary line:
`float(line.split(',')[2].strip().split('%')[0])`; `none` models the
`IndexError`/`ValueError` the source catches. -/
def packetLossOf? (line : String) : Option ℚ :=
  match (line.splitOn ",")[2]? with
  | none => none
  | some piece => pyFloat? ((piece.trim.splitOn "%").headD "")

/-- The packet-loss loop of `run_ping_test`: scan the lines, and on the
first line containing `'packet loss'` that parses, take its value and
stop; lines that fail to parse are skipped; default is `0`. -/
def parsePacketLoss : List String → ℚ
  | [] => 0
  | l :: ls =>
    if hasPacketLoss l then
      match packetLossOf? l with
      | some v => v
      | none => parsePacketLoss ls
    else parsePacketLoss ls

/-- The record produced by one ping run (`ping_data` dict). -/
structure PingData where
  timestamp : String
  target : String
  avg_latency_ms : ℚ
  min_latency_ms : ℚ
  max_latency_ms : ℚ
  packet_loss_percent : ℚ
deriving DecidableEq

/-- `NetworkMonitor.run_ping_test` from the line-splitting point: collect
latencies, return `None` when none parsed, otherwise round the mean, min
and max of the samples to two decimals and attach the parsed packet
loss. `now` stands for `datetime.now().isoformat()`. -/
def run_ping_test (now target : String) (lines : List String) : Option PingData :=
  let latencies := extractLatencies lines
  if latencies = [] then none
  else
    some { timestamp := now
           target := target
           avg_latency_ms := round2 (pyMean latencies)
           min_latency_ms := round2 (pyMin latencies)
           max_latency_ms := round2 (pyMax latencies)
           packet_loss_percent := parsePacketLoss lines }

/-! ## CSV record store headers and migration. -/

/-- The speed-test header written by `NetworkMonitor._init_csv_files`
(network_monitor.py lines 79–86): 24 columns. -/
def linuxSpeedHeaders : List String :=
  ["timestamp", "download_mbps", "upload_mbps",
   "idle_latency_ms", "idle_jitter_ms", "idle_low_ms", "idle_high_ms",
   "download_latency_ms", "download_jitter_ms", "download_low_ms", "download_high_ms",
   "upload_latency_ms", "upload_jitter_ms", "upload_low_ms", "upload_high_ms",
   "packet_loss_percent", "download_bytes", "upload_bytes",
   "server_name", "server_location", "server_id", "isp", "external_ip", "result_url"]

/-- `new_headers` in `NetworkMonitor._ensure_csv_has_server_id` (lines
109–116); the source repeats the same 24-name literal. -/
def linuxNewHeaders : List String := linuxSpeedHeaders

/-- The speed-test header written by
`NetworkMonitorWindows._init_csv_files` and by its migration (lines
100–107 and 148–155): 23 columns. -/
def winSpeedHeaders : List String :=
  ["timestamp", "download_mbps", "upload_mbps", "ping_ms",
   "server_name", "server_location", "server_id", "isp", "external_ip",
   "idle_latency_ms", "idle_jitter_ms",
   "download_latency_low_ms", "download_latency_high_ms", "download_latency_iqm_ms",
   "download_jitter_ms",
   "upload_latency_low_ms", "upload_latency_high_ms", "upload_latency_iqm_ms",
   "upload_jitter_ms",
   "packet_loss_percent", "download_bytes", "upload_bytes", "result_url"]

/-- `NetworkMonitor._ensure_csv_has_server_id` (lines 97–148) on a file
given as its list of CSV rows.  The source decides from the first line's
comma-split fields (equal to the field list, headers being quote-free);
an empty file has a blank first line, triggers the update branch, and is
written back unchanged (`if all_rows:` fails).  Rows are padded in place
with `''` up to the 24-column header. -/
def ensure_csv_has_server_id : List (List String) → List (List String)
  | [] => []
  | hdr :: rows =>
    if hdr.length < 24 ∨ "idle_latency_ms" ∉ hdr then
      linuxNewHeaders :: rows.map (fun r => r ++ List.replicate (24 - r.length) "")
    else hdr :: rows

/-- `NetworkMonitorWindows._migrate_csv_if_needed` (lines 121–168) on a
file given as its list of CSV rows.  An empty file raises on
`next(reader)`, which the `except` swallows, leaving the file unchanged.
A header with fewer than 23 columns triggers migration: each data row
with at least 8 fields is cut or padded to 9 fields (`row[:9]` or
`row + ['']`) and extended with 14 `0` columns (the csv writer renders
the integer `0` as `"0"`); shorter rows are dropped. -/
def migrate_csv_if_needed : List (List String) → List (List String)
  | [] => []
  | hdr :: rows =>
    if hdr.length < 23 then
      winSpeedHeaders :: rows.filterMap (fun row =>
        if 8 ≤ row.length then
          some ((if 9 ≤ row.length then row.take 9 else row ++ [""])
            ++ List.replicate 14 "0")
        else none)
    else hdr :: rows

/-! ## Speedtest JSON output and its extraction. -/

/-- The JSON values the speedtest CLI emits, as far as the monitors read
them: numbers, strings and objects. -/
inductive Json where
  | null : Json
  | num : ℚ → Json
  | str : String → Json
  | obj : List (String × Json) → Json

/-- Dictionary lookup (first binding wins, as in a Python dict). -/
def jlookup : List (String × Json) → String → Option Json
  | [], _ => none
  | (k, v) :: rest, key => if k = key then some v else jlookup rest key

/-- Python `data[k]`: `none` models the `KeyError`/`TypeError` on a
missing key or non-dict value, which the caller's `except` turns into an
overall `None`. -/
def Json.get? : Json → String → Option Json
  | .obj kvs, k => jlookup kvs k
  | _, _ => none

/-- Read a JSON number. -/
def Json.num? : Json → Option ℚ
  | .num q => some q
  | _ => none

/-- Read a JSON string. -/
def Json.str? : Json → Option String
  | .str s => some s
  | _ => none

/-- Python `d.get(k, default)` where the result is used as a number: a
missing key yields the default, a present non-numeric value makes the
surrounding arithmetic raise (overall `None`), and calling `.get` on a
non-dict raises `AttributeError` (overall `None`). -/
def Json.getNumD : Json → String → ℚ → Option ℚ
  | .obj kvs, k, d =>
    match jlookup kvs k with
    | none => some d
    | some v => v.num?
  | _, _, _ => none

/-- Python `d.get(k, default)` where the result is used as a string. -/
def Json.getStrD : Json → String → String → Option String
  | .obj kvs, k, d =>
    match jlookup kvs k with
    | none => some d
    | some v => v.str?
  | _, _, _ => none

/-- Python `d.get(k, {})`: a missing key yields the empty dict; `.get` on
a non-dict raises (overall `None`). -/
def Json.getObjD : Json → String → Option Json
  | .obj kvs, k => some ((jlookup kvs k).getD (Json.obj []))
  | _, _ => none

/-- The `speed_data` record built by `run_speedtest` (network_monitor.py
lines 382–406; the Windows variant lines 212–236 is identical). -/
structure SpeedData where
  timestamp : String
  download_mbps : ℚ
  upload_mbps : ℚ
  ping_ms : ℚ
  server_name : String
  server_location : String
  server_id : ℚ
  isp : String
  external_ip : String
  idle_latency_ms : ℚ
  idle_jitter_ms : ℚ
  download_latency_low_ms : ℚ
  download_latency_high_ms : ℚ
  download_latency_iqm_ms : ℚ
  download_jitter_ms : ℚ
  upload_latency_low_ms : ℚ
  upload_latency_high_ms : ℚ
  upload_latency_iqm_ms : ℚ
  upload_jitter_ms : ℚ
  packet_loss_percent : ℚ
  download_bytes : ℚ
  upload_bytes : ℚ
  result_url : String
deriving DecidableEq

/-- The per-phase latency statistics read from
`data['download'/'upload'].get('latency', {})` with defaults `0`. -/
structure PhaseLatencyStats where
  low : ℚ
  high : ℚ
  iqm : ℚ
  jitter : ℚ
deriving DecidableEq

/-- Everything `run_speedtest` reads out of the `download` / `upload`
sections: the required bandwidth, the optional byte count, and the
optional latency statistics. -/
structure PhaseSection where
  bandwidth : ℚ
  bytes : ℚ
  latency : PhaseLatencyStats
deriving DecidableEq

/-- Everything read out of the `ping` section: the required latency
(`data['ping']['latency']`) and the `.get`-with-default reads backing
`idle_latency_ms` / `idle_jitter_ms`. -/
structure PingSection where
  latency : ℚ
  idleLatency : ℚ
  idleJitter : ℚ
deriving DecidableEq

/-- The required server identity (`data['server'][...]`). -/
structure ServerIdent where
  name : String
  location : String
  country : String
  id : ℚ
deriving DecidableEq

/-- Reads `phase.get('latency', {})` and its `low`/`high`/`iqm`/`jitter`
entries with default `0`. -/
def Json.phaseLatency? (phase : Json) : Option PhaseLatencyStats := do
  let lat ← phase.getObjD "latency"
  let low ← lat.getNumD "low" 0
  let high ← lat.getNumD "high" 0
  let iqm ← lat.getNumD "iqm" 0
  let jitter ← lat.getNumD "jitter" 0
  pure { low := low, high := high, iqm := iqm, jitter := jitter }

/-- Reads a `download`/`upload` section: `phase['bandwidth']` (required),
`phase.get('bytes', 0)` and the latency statistics. -/
def Json.phaseSection? (phase : Json) : Option PhaseSection := do
  let bandwidth ← (phase.get? "bandwidth").bind Json.num?
  let bytes ← phase.getNumD "bytes" 0
  let latency ← phase.phaseLatency?
  pure { bandwidth := bandwidth, bytes := bytes, latency := latency }

/-- Reads the `ping` section: `ping['latency']` (required),
`ping.get('latency', 0)` and `ping.get('jitter', 0)`. -/
def Json.pingSection? (ping : Json) : Option PingSection := do
  let latency ← (ping.get? "latency").bind Json.num?
  let idleLatency ← ping.getNumD "latency" 0
  let idleJitter ← ping.getNumD "jitter" 0
  pure { latency := latency, idleLatency := idleLatency, idleJitter := idleJitter }

/-- Reads the required `server` identity fields. -/
def Json.serverIdent? (server : Json) : Option ServerIdent := do
  let name ← (server.get? "name").bind Json.str?
  let location ← (server.get? "location").bind Json.str?
  let country ← (server.get? "country").bind Json.str?
  let id ← (server.get? "id").bind Json.num?
  pure { name := name, location := location, country := country, id := id }

/-- Reads `data['isp']` and `data['interface']['externalIp']` (both
required). -/
def Json.identSection? (data : Json) : Option (String × String) := do
  let ispName ← (data.get? "isp").bind Json.str?
  let itf ← data.get? "interface"
  let externalIp ← (itf.get? "externalIp").bind Json.str?
  pure (ispName, externalIp)

/-- Reads `data.get('packetLoss', 0)` and
`data.get('result', {}).get('url', '')`. -/
def Json.miscSection? (data : Json) : Option (ℚ × String) := do
  let packetLoss ← data.getNumD "packetLoss" 0
  let resObj ← data.getObjD "result"
  let resultUrl ← resObj.getStrD "url" ""
  pure (packetLoss, resultUrl)

/-- The extraction of `speed_data` from the parsed JSON (lines 382–406):
any failing required access raises inside the `try`, producing `None`;
optional accesses use `.get` with defaults `0` / `{}` / `''`.  `now`
stands for `datetime.now().isoformat()`. -/
def extract_speed_data (now : String) (data : Json) : Option SpeedData := do
  let download ← data.get? "download"
  let upload ← data.get? "upload"
  let ping ← data.get? "ping"
  let server ← data.get? "server"
  let dl ← download.phaseSection?
  let ul ← upload.phaseSection?
  let pg ← ping.pingSection?
  let sv ← server.serverIdent?
  let ident ← data.identSection?
  let misc ← data.miscSection?
  pure { timestamp := now
         download_mbps := round2 (dl.bandwidth * 8 / 1000000)
         upload_mbps := round2 (ul.bandwidth * 8 / 1000000)
         ping_ms := round2 pg.latency
         server_name := sv.name
         server_location := sv.location ++ ", " ++ sv.country
         server_id := sv.id
         isp := ident.1
         external_ip := ident.2
         idle_latency_ms := round2 pg.idleLatency
         idle_jitter_ms := round2 pg.idleJitter
         download_latency_low_ms := round2 dl.latency.low
         download_latency_high_ms := round2 dl.latency.high
         download_latency_iqm_ms := round2 dl.latency.iqm
         download_jitter_ms := round2 dl.latency.jitter
         upload_latency_low_ms := round2 ul.latency.low
         upload_latency_high_ms := round2 ul.latency.high
         upload_latency_iqm_ms := round2 ul.latency.iqm
         upload_jitter_ms := round2 ul.latency.jitter
         packet_loss_percent := misc.1
         download_bytes := dl.bytes
         upload_bytes := ul.bytes
         result_url := misc.2 }

/-- A CSV cell as written by the monitors: a string or a number. -/
inductive Cell where
  | str : String → Cell
  | num : ℚ → Cell
deriving DecidableEq

/-- The row `run_speedtest` appends to the speed CSV, in the source's
write order (network_monitor.py lines 423–435): 23 cells, with `ping_ms`
in position 3 and the server identity in positions 4–8. -/
def linuxSpeedRow (sd : SpeedData) : List Cell :=
  [Cell.str sd.timestamp, Cell.num sd.download_mbps,
   Cell.num sd.upload_mbps, Cell.num sd.ping_ms,
   Cell.str sd.server_name, Cell.str sd.server_location,
   Cell.num sd.server_id, Cell.str sd.isp, Cell.str sd.external_ip,
   Cell.num sd.idle_latency_ms, Cell.num sd.idle_jitter_ms,
   Cell.num sd.download_latency_low_ms, Cell.num sd.download_latency_high_ms,
   Cell.num sd.download_latency_iqm_ms, Cell.num sd.download_jitter_ms,
   Cell.num sd.upload_latency_low_ms, Cell.num sd.upload_latency_high_ms,
   Cell.num sd.upload_latency_iqm_ms, Cell.num sd.upload_jitter_ms,
   Cell.num sd.packet_loss_percent, Cell.num sd.download_bytes,
   Cell.num sd.upload_bytes, Cell.str sd.result_url]

/-- The `speed_data` keys in the order the Linux writer emits them
(lines 423–435), to compare positionally against the header names. -/
def linuxSpeedRowKeys : List String :=
  ["timestamp", "download_mbps", "upload_mbps", "ping_ms",
   "server_name", "server_location", "server_id", "isp", "external_ip",
   "idle_latency_ms", "idle_jitter_ms",
   "download_latency_low_ms", "download_latency_high_ms", "download_latency_iqm_ms",
   "download_jitter_ms",
   "upload_latency_low_ms", "upload_latency_high_ms", "upload_latency_iqm_ms",
   "upload_jitter_ms",
   "packet_loss_percent", "download_bytes", "upload_bytes", "result_url"]

/-- The row the Windows writer appends (network_monitor_windows.py lines
252–264): the same fields in the same order as the Linux writer. -/
def winSpeedRow (sd : SpeedData) : List Cell := linuxSpeedRow sd

/-! ## Server catalog, scorer and selection
(`NetworkMonitor.test_server_performance` / `find_best_server`). -/

/-- A catalog entry as returned by `get_available_servers` (the fields
`find_best_server` reads). -/
structure Server where
  id : ℕ
  name : String
  distance : ℚ
deriving DecidableEq

/-- The raw measurements of one benchmark probe of a candidate (the JSON
fields `test_server_performance` reads on success). -/
structure SpeedRaw where
  downloadBandwidth : ℚ
  uploadBandwidth : ℚ
  pingLatency : ℚ
  pingJitter : Option ℚ
  serverName : String
  serverLocation : String
  serverCountry : String
  serverDistance : Option ℚ
deriving DecidableEq

/-- The unrounded score `download_mbps - (ping_ms / 10)` computed at
network_monitor.py line 245 before being rounded into the record. -/
def rawScore (r : SpeedRaw) : ℚ :=
  r.downloadBandwidth * 8 / 1000000 - r.pingLatency / 10

/-- The `performance` record built by `test_server_performance` (lines
247–258; the `test_time` timestamp is omitted as pure wall-clock data). -/
structure Perf where
  server_id : ℕ
  server_name : String
  location : String
  distance : ℚ
  download_mbps : ℚ
  upload_mbps : ℚ
  ping_ms : ℚ
  score : ℚ
  jitter : ℚ
deriving DecidableEq

/-- `NetworkMonitor.test_server_performance` (lines 219–277), given the
probe outcome for the server (`none` models a failed or unparseable
benchmark, `some` its parsed JSON fields). -/
def test_server_performance (serverId : ℕ) (raw : Option SpeedRaw) : Option Perf :=
  match raw with
  | none => none
  | some data =>
    let download_mbps : ℚ := data.downloadBandwidth * 8 / 1000000
    let ping_ms : ℚ := data.pingLatency
    let score : ℚ := download_mbps - ping_ms / 10
    some { server_id := serverId
           server_name := data.serverName
           location := data.serverLocation ++ ", " ++ data.serverCountry
           distance := data.serverDistance.getD 0
           download_mbps := round2 download_mbps
           upload_mbps := round2 (data.uploadBandwidth * 8 / 1000000)
           ping_ms := round2 ping_ms
           score := round2 score
           jitter := match data.pingJitter with
                     | some j => round2 j
                     | none => 0 }

/-- Python truthiness of `Optional[int]`: `None` and `0` are falsy.  This
is the test both `if not force_retest and self.preferred_server_id:` and
`if server_id:` perform. -/
def truthyId : Option ℕ → Bool
  | none => false
  | some i => decide (i ≠ 0)

/-- The monitor state `find_best_server` reads and writes:
`preferred_server_id` and the in-memory `server_test_results` dict. -/
structure MonState where
  preferred : Option ℕ
  testResults : List (String × Perf)
deriving DecidableEq

/-- Python dict assignment `d[k] = v` on an association list. -/
def dictInsert (k : String) (v : Perf) (d : List (String × Perf)) : List (String × Perf) :=
  (k, v) :: d.filter (fun p => p.1 ≠ k)

/-- Observable side effects of a selection run: one catalog listing, one
benchmark probe per tested candidate, one cache write on success. -/
inductive FbAction where
  | listServers : FbAction
  | probe : ℕ → FbAction
  | saveCache : FbAction
deriving DecidableEq

/-- The survivors of a selection run: the first `maxServersToTest`
candidates whose benchmark succeeded, in catalog (distance) order. -/
def surviving (servers : List Server) (probe : ℕ → Option SpeedRaw)
    (maxServersToTest : ℕ) : List Perf :=
  (servers.take maxServersToTest).filterMap
    (fun s => test_server_performance s.id (probe s.id))

/-- `NetworkMonitor.find_best_server` (lines 279–341).  `servers` is the
catalog `get_available_servers` would return (distance-ordered by the
vendor), `probe` the benchmark oracle.  Returns the new state, the
selected id, and the trace of external actions.  The unreachable `[]`
branch of the match mirrors the impossible `test_results[0]` on an empty
sorted list. -/
def find_best_server (st : MonState) (servers : List Server)
    (probe : ℕ → Option SpeedRaw) (maxServersToTest : ℕ) (forceRetest : Bool) :
    MonState × Option ℕ × List FbAction :=
  if forceRetest = false ∧ truthyId st.preferred = true then
    (st, st.preferred, [])
  else if servers = [] then
    (st, none, [FbAction.listServers])
  else
    let serversToTest := servers.take maxServersToTest
    let testResults := surviving servers probe maxServersToTest
    let st1 : MonState :=
      { st with testResults :=
          serversToTest.foldl (fun d s =>
            match test_server_performance s.id (probe s.id) with
            | some p => dictInsert (toString s.id) p d
            | none => d) st.testResults }
    let trace := FbAction.listServers :: serversToTest.map (fun s => FbAction.probe s.id)
    if testResults = [] then
      (st1, none, trace)
    else
      match pySortDescBy Perf.score testResults with
      | [] => (st1, none, trace)
      | best :: _ =>
        ({ st1 with preferred := some best.server_id },
         some best.server_id, trace ++ [FbAction.saveCache])

/-! ## The speed-test cycle (`NetworkMonitor.run_speedtest`, lines
343–447), with the probe subprocess as an oracle. -/

/-- The two command shapes `run_speedtest` can spawn. -/
inductive SpeedtestCmd where
  | pinned : ℕ → SpeedtestCmd
  | auto : SpeedtestCmd
deriving DecidableEq

/-- Tail of `run_speedtest` after a successful probe: parse the JSON and
append one row to the store (failures to parse append nothing). -/
def speedtestFinish (now : String) (out : Json) (trace : List SpeedtestCmd) :
    Option SpeedData × List SpeedtestCmd × List (List Cell) :=
  match extract_speed_data now out with
  | none => (none, trace, [])
  | some sd => (some sd, trace, [linuxSpeedRow sd])

/-- `NetworkMonitor.run_speedtest`.  `exec` is the subprocess oracle
(`none` models a nonzero exit status), `findBestResult` the id the
nested `find_best_server()` call would return when no preferred server
is set.  Returns the parsed data, the trace of spawned probes, and the
rows appended to the store. -/
def run_speedtest (now : String) (preferred : Option ℕ) (useBestServer : Bool)
    (findBestResult : Option ℕ) (exec : SpeedtestCmd → Option Json) :
    Option SpeedData × List SpeedtestCmd × List (List Cell) :=
  let serverId : Option ℕ :=
    if useBestServer then
      if truthyId preferred = false then findBestResult else preferred
    else none
  let cmd : SpeedtestCmd :=
    if truthyId serverId = true then SpeedtestCmd.pinned (serverId.getD 0)
    else SpeedtestCmd.auto
  match exec cmd with
  | some out => speedtestFinish now out [cmd]
  | none =>
    if truthyId serverId = true then
      match exec SpeedtestCmd.auto with
      | some out => speedtestFinish now out [cmd, SpeedtestCmd.auto]
      | none => (none, [cmd, SpeedtestCmd.auto], [])
    else (none, [cmd], [])

/-! ## The inter-cycle wait (`run_continuous`).

A wait is a list of atomic sleep chunks; the running flag is checked
before each chunk (and never during one).  `t` is the time, in seconds
from the start of the wait, at which the shutdown signal clears the
flag; the result is the total time slept before the loop moves on. -/

/-- Walk the chunks: before each chunk, stop if the flag is already
cleared (`t ≤ elapsed`); otherwise sleep the whole chunk. -/
def waitLoop (t : ℕ) : ℕ → List ℕ → ℕ
  | elapsed, [] => elapsed
  | elapsed, c :: cs => if t ≤ elapsed then elapsed else waitLoop t (elapsed + c) cs

/-- Total time slept for a chunk list when the flag clears at `t`. -/
def waitSlept (chunks : List ℕ) (t : ℕ) : ℕ := waitLoop t 0 chunks

/-- The Linux `run_continuous` wait (network_monitor.py lines 570–572):
one flag check, then a single `time.sleep(interval_minutes * 60)`. -/
def linuxWaitChunks (intervalMinutes : ℕ) : List ℕ := [intervalMinutes * 60]

/-- The Windows `run_continuous` wait (network_monitor_windows.py lines
404–409): `interval_minutes * 60` one-second sleeps, the flag checked
before each. -/
def windowsWaitChunks (intervalMinutes : ℕ) : List ℕ :=
  List.replicate (intervalMinutes * 60) 1

/-! ## Concrete inputs for counterexamples and witnesses. -/

/-- Benchmark outcome for candidate A: 0.0016 Mbps raw, 0.056 ms ping.
Raw score `-0.004`; stored (rounded) score `0`. -/
def cexRawA : SpeedRaw :=
  { downloadBandwidth := 200, uploadBandwidth := 200, pingLatency := 7 / 125
    pingJitter := none, serverName := "A", serverLocation := "X"
    serverCountry := "Y", serverDistance := some 1 }

/-- Benchmark outcome for candidate B: 0.0016 Mbps raw, 0.054 ms ping.
Raw score `-0.0038`, strictly larger than A's, and its record fields give
`download_mbps - ping_ms / 10 = -0.005`, also strictly larger than A's
`-0.006` — yet its stored score rounds to the same `0` as A's. -/
def cexRawB : SpeedRaw :=
  { downloadBandwidth := 200, uploadBandwidth := 200, pingLatency := 27 / 500
    pingJitter := none, serverName := "B", serverLocation := "X"
    serverCountry := "Y", serverDistance := some 2 }

/-- Two-candidate catalog, A closer than B. -/
def cexServers : List Server := [⟨1, "A", 1⟩, ⟨2, "B", 2⟩]

/-- Benchmark oracle for the catalog above. -/
def cexProbe : ℕ → Option SpeedRaw := fun i =>
  if i = 1 then some cexRawA else if i = 2 then some cexRawB else none

/-- A cold-start monitor state: no cached server, no results. -/
def fbSt0 : MonState := { preferred := none, testResults := [] }

/-- A monitor state with a cached preferred server. -/
def fbStCached : MonState := { preferred := some 4242, testResults := [] }

/-- A minimal well-formed speedtest JSON with every optional field
absent: only the required bandwidths, ping latency, server identity, isp
and external ip are present. -/
def cexJson : Json :=
  Json.obj
    [("download", Json.obj [("bandwidth", Json.num 125)]),
     ("upload", Json.obj [("bandwidth", Json.num 250)]),
     ("ping", Json.obj [("latency", Json.num 2)]),
     ("server", Json.obj [("name", Json.str "S"), ("location", Json.str "Loc"),
                          ("country", Json.str "C"), ("id", Json.num 9)]),
     ("isp", Json.str "ISP"),
     ("interface", Json.obj [("externalIp", Json.str "1.2.3.4")])]

/-- The record `run_speedtest` extracts from `cexJson` (the 0.001 and
0.002 Mbps bandwidths round to 0 at two decimals). -/
def cexSd : SpeedData :=
  { timestamp := "t0", download_mbps := 0, upload_mbps := 0, ping_ms := 2
    server_name := "S", server_location := "Loc, C", server_id := 9
    isp := "ISP", external_ip := "1.2.3.4"
    idle_latency_ms := 2, idle_jitter_ms := 0
    download_latency_low_ms := 0, download_latency_high_ms := 0
    download_latency_iqm_ms := 0, download_jitter_ms := 0
    upload_latency_low_ms := 0, upload_latency_high_ms := 0
    upload_latency_iqm_ms := 0, upload_jitter_ms := 0
    packet_loss_percent := 0, download_bytes := 0, upload_bytes := 0
    result_url := "" }

/-- A well-formed speedtest JSON carrying only the required fields
(bandwidths, ping latency, server identity, isp, external ip); every
optional field is absent. -/
def requiredOnlyJson (bwD bwU lat sid : ℚ) (sname sloc scountry ispName eip : String) : Json :=
  Json.obj
    [("download", Json.obj [("bandwidth", Json.num bwD)]),
     ("upload", Json.obj [("bandwidth", Json.num bwU)]),
     ("ping", Json.obj [("latency", Json.num lat)]),
     ("server", Json.obj [("name", Json.str sname), ("location", Json.str sloc),
                          ("country", Json.str scountry), ("id", Json.num sid)]),
     ("isp", Json.str ispName),
     ("interface", Json.obj [("externalIp", Json.str eip)])]

/-- The record the extraction is expected to produce from
`requiredOnlyJson`: the required values carried through, and every
optional-field-derived column at its default — `0` for packet loss,
jitter, the per-phase latency statistics and the byte counts, and the
empty string for the result url. -/
def requiredOnlyData (now : String) (bwD bwU lat sid : ℚ)
    (sname sloc scountry ispName eip : String) : SpeedData :=
  { timestamp := now
    download_mbps := round2 (bwD * 8 / 1000000)
    upload_mbps := round2 (bwU * 8 / 1000000)
    ping_ms := round2 lat
    server_name := sname
    server_location := sloc ++ ", " ++ scountry
    server_id := sid
    isp := ispName
    external_ip := eip
    idle_latency_ms := round2 lat
    idle_jitter_ms := 0
    download_latency_low_ms := 0
    download_latency_high_ms := 0
    download_latency_iqm_ms := 0
    download_jitter_ms := 0
    upload_latency_low_ms := 0
    upload_latency_high_ms := 0
    upload_latency_iqm_ms := 0
    upload_jitter_ms := 0
    packet_loss_percent := 0
    download_bytes := 0
    upload_bytes := 0
    result_url := "" }

/-- Subprocess oracle for the fallback scenario: every pinned probe
fails, auto-selection succeeds with `cexJson`. -/
def cexExec : SpeedtestCmd → Option Json := fun c =>
  match c with
  | SpeedtestCmd.pinned _ => none
  | SpeedtestCmd.auto => some cexJson

/-- A nine-column old-schema header (the pre-migration format that
already carried `server_id`). -/
def cexOldHeaders : List String :=
  ["timestamp", "download_mbps", "upload_mbps", "ping_ms",
   "server_name", "server_location", "server_id", "isp", "external_ip"]

/-- An old-schema data row with 9 fields. -/
def cexOldRow9 : List String :=
  ["2024-01-01T00:00:00", "100.5", "20.25", "12.5", "S", "L, C", "99", "ISP", "1.2.3.4"]

/-- An old-schema data row with 8 fields (the oldest format, without
`server_id`). -/
def cexOldRow8 : List String :=
  ["2024-01-01T01:00:00", "90.0", "18.0", "14.0", "S", "L, C", "ISP", "1.2.3.4"]

/-- A concrete ping transcript: two samples (1.0 ms and 3.0 ms) and a
0% loss summary. -/
def cexPingLines : List String :=
  ["PING 8.8.8.8 (8.8.8.8) 56(84) bytes of data.",
   "64 bytes from 8.8.8.8: icmp_seq=1 ttl=115 time=1.0 ms",
   "64 bytes from 8.8.8.8: icmp_seq=2 ttl=115 time=3.0 ms",
   "",
   "--- 8.8.8.8 ping statistics ---",
   "2 packets transmitted, 2 received, 0% packet loss, time 1001ms",
   "rtt min/avg/max/mdev = 1.000/2.000/3.000/1.000 ms"]

/-- The record `run_ping_test` produces on `cexPingLines`. -/
def cexPingData : PingData :=
  { timestamp := "t0", target := "8.8.8.8", avg_latency_ms := 2
    min_latency_ms := 1, max_latency_ms := 3, packet_loss_percent := 0 }

/-- The summary line of claim C8. -/
def pingSummaryLine : String := "20 packets transmitted, 18 received, 10% packet loss"

/-! ## Lemmas about rounding. -/

theorem roundHalfEven_le_floor_add_one (q : ℚ) : roundHalfEven q ≤ ⌊q⌋ + 1 := by
  unfold roundHalfEven
  split_ifs with h1 h2
  · omega
  · omega
  · calc ⌊q + 1 / 2⌋ ≤ ⌊q + 1⌋ := Int.floor_mono (by linarith)
      _ = ⌊q⌋ + 1 := Int.floor_add_one q

theorem floor_le_roundHalfEven (q : ℚ) : ⌊q⌋ ≤ roundHalfEven q := by
  unfold roundHalfEven
  split_ifs with h1 h2
  · omega
  · omega
  · exact Int.floor_mono (by linarith)

theorem fract_eq_half_iff (q : ℚ) : Int.fract q = 1 / 2 ↔ q = (⌊q⌋ : ℚ) + 1 / 2 := by
  unfold Int.fract
  constructor <;> intro h <;> linarith

theorem roundHalfEven_mono {x y : ℚ} (hxy : x ≤ y) : roundHalfEven x ≤ roundHalfEven y := by
  rcases lt_or_ge ⌊x⌋ ⌊y⌋ with hf | hf
  · have h1 := roundHalfEven_le_floor_add_one x
    have h2 := floor_le_roundHalfEven y
    omega
  · have hfe : ⌊x⌋ = ⌊y⌋ := le_antisymm (Int.floor_mono hxy) hf
    by_cases hx : Int.fract x = 1 / 2 <;> by_cases hy : Int.fract y = 1 / 2
    · have hxx := (fract_eq_half_iff x).mp hx
      have hyy := (fract_eq_half_iff y).mp hy
      have hxy2 : x = y := by rw [hxx, hyy, hfe]
      rw [hxy2]
    · have hxx := (fract_eq_half_iff x).mp hx
      have hy1 : ((⌊y⌋ : ℚ) + 1) ≤ y + 1 / 2 := by
        have h := hxy
        rw [hxx, hfe] at h
        linarith
      have h2 : ⌊y⌋ + 1 ≤ ⌊y + 1 / 2⌋ := Int.le_floor.mpr (by push_cast; linarith)
      have h3 := roundHalfEven_le_floor_add_one x
      have h4 : roundHalfEven y = ⌊y + 1 / 2⌋ := by
        unfold roundHalfEven
        rw [if_neg hy]
      omega
    · have hyy := (fract_eq_half_iff y).mp hy
      have hxne : x ≠ (⌊x⌋ : ℚ) + 1 / 2 := fun hc => hx ((fract_eq_half_iff x).mpr hc)
      have hxle : x ≤ (⌊x⌋ : ℚ) + 1 / 2 := by
        have h := hxy
        rw [hyy, ← hfe] at h
        exact h
      have hxlt : x < (⌊x⌋ : ℚ) + 1 / 2 := lt_of_le_of_ne hxle hxne
      have h1 : roundHalfEven x = ⌊x + 1 / 2⌋ := by
        unfold roundHalfEven
        rw [if_neg hx]
      have h2 : ⌊x + 1 / 2⌋ < ⌊x⌋ + 1 := Int.floor_lt.mpr (by push_cast; linarith)
      have h3 := floor_le_roundHalfEven y
      omega
    · have h1 : roundHalfEven x = ⌊x + 1 / 2⌋ := by
        unfold roundHalfEven
        rw [if_neg hx]
      have h2 : roundHalfEven y = ⌊y + 1 / 2⌋ := by
        unfold roundHalfEven
        rw [if_neg hy]
      rw [h1, h2]
      exact Int.floor_mono (by linarith)

theorem round2_mono {x y : ℚ} (h : x ≤ y) : round2 x ≤ round2 y := by
  unfold round2
  have h2 := roundHalfEven_mono (mul_le_mul_of_nonneg_right h (by norm_num : (0 : ℚ) ≤ 100))
  have h3 : ((roundHalfEven (x * 100) : ℤ) : ℚ) ≤ ((roundHalfEven (y * 100) : ℤ) : ℚ) := by
    exact_mod_cast h2
  linarith

theorem round2_eval_down (q : ℚ) (n : ℤ) (h1 : (n : ℚ) ≤ q * 100)
    (h2 : q * 100 < (n : ℚ) + 1 / 2) : round2 q = (n : ℚ) / 100 := by
  have hfl : ⌊q * 100⌋ = n := by
    rw [Int.floor_eq_iff]
    exact ⟨h1, by push_cast; linarith⟩
  have hfr : Int.fract (q * 100) ≠ 1 / 2 := by
    rw [Int.fract, hfl]
    intro hc
    have : q * 100 = (n : ℚ) + 1 / 2 := by linarith
    linarith
  have hup : ⌊q * 100 + 1 / 2⌋ = n := by
    rw [Int.floor_eq_iff]
    constructor
    · push_cast
      linarith
    · push_cast
      linarith
  unfold round2 roundHalfEven
  rw [if_neg hfr, hup]

theorem round2_eval_up (q : ℚ) (n : ℤ) (h1 : (n : ℚ) + 1 / 2 < q * 100)
    (h2 : q * 100 < (n : ℚ) + 1) : round2 q = ((n + 1 : ℤ) : ℚ) / 100 := by
  have hfl : ⌊q * 100⌋ = n := by
    rw [Int.floor_eq_iff]
    exact ⟨by linarith, by push_cast; linarith⟩
  have hfr : Int.fract (q * 100) ≠ 1 / 2 := by
    rw [Int.fract, hfl]
    intro hc
    have : q * 100 = (n : ℚ) + 1 / 2 := by linarith
    linarith
  have hup : ⌊q * 100 + 1 / 2⌋ = n + 1 := by
    rw [Int.floor_eq_iff]
    constructor
    · push_cast
      linarith
    · push_cast
      linarith
  unfold round2 roundHalfEven
  rw [if_neg hfr, hup]

theorem round2_zero : round2 0 = 0 := by
  rw [round2_eval_down 0 0 (by norm_num) (by norm_num)]
  norm_num

/-! ## Lemmas about `pyMin`, `pyMax` and `pyMean`. -/

theorem foldl_min_le_init (l : List ℚ) : ∀ a : ℚ, l.foldl min a ≤ a := by
  induction l with
  | nil => intro a; simp
  | cons b bs ih =>
    intro a
    calc (b :: bs).foldl min a = bs.foldl min (min a b) := rfl
      _ ≤ min a b := ih (min a b)
      _ ≤ a := min_le_left a b

theorem foldl_min_le_mem (l : List ℚ) : ∀ a x : ℚ, x ∈ l → l.foldl min a ≤ x := by
  induction l with
  | nil => intro a x hx; cases hx
  | cons b bs ih =>
    intro a x hx
    rcases List.mem_cons.mp hx with rfl | hmem
    · calc (x :: bs).foldl min a = bs.foldl min (min a x) := rfl
        _ ≤ min a x := foldl_min_le_init bs (min a x)
        _ ≤ x := min_le_right a x
    · exact ih (min a b) x hmem

theorem pyMin_le_of_mem {l : List ℚ} {x : ℚ} (hx : x ∈ l) : pyMin l ≤ x := by
  cases l with
  | nil => cases hx
  | cons b bs =>
    rcases List.mem_cons.mp hx with rfl | hmem
    · exact foldl_min_le_init bs x
    · exact foldl_min_le_mem bs b x hmem

theorem init_le_foldl_max (l : List ℚ) : ∀ a : ℚ, a ≤ l.foldl max a := by
  induction l with
  | nil => intro a; simp
  | cons b bs ih =>
    intro a
    calc a ≤ max a b := le_max_left a b
      _ ≤ bs.foldl max (max a b) := ih (max a b)
      _ = (b :: bs).foldl max a := rfl

theorem mem_le_foldl_max (l : List ℚ) : ∀ a x : ℚ, x ∈ l → x ≤ l.foldl max a := by
  induction l with
  | nil => intro a x hx; cases hx
  | cons b bs ih =>
    intro a x hx
    rcases List.mem_cons.mp hx with rfl | hmem
    · calc x ≤ max a x := le_max_right a x
        _ ≤ bs.foldl max (max a x) := init_le_foldl_max bs (max a x)
        _ = (x :: bs).foldl max a := rfl
    · exact ih (max a b) x hmem

theorem mem_le_pyMax {l : List ℚ} {x : ℚ} (hx : x ∈ l) : x ≤ pyMax l := by
  cases l with
  | nil => cases hx
  | cons b bs =>
    rcases List.mem_cons.mp hx with rfl | hmem
    · exact init_le_foldl_max bs x
    · exact mem_le_foldl_max bs b x hmem

theorem length_mul_le_sum (c : ℚ) (l : List ℚ) (h : ∀ x ∈ l, c ≤ x) :
    (l.length : ℚ) * c ≤ l.sum := by
  induction l with
  | nil => simp
  | cons b bs ih =>
    have hb := h b (List.mem_cons_self b bs)
    have ihs := ih fun x hx => h x (List.mem_cons_of_mem b hx)
    simp only [List.length_cons, List.sum_cons]
    push_cast
    linarith

theorem sum_le_length_mul (c : ℚ) (l : List ℚ) (h : ∀ x ∈ l, x ≤ c) :
    l.sum ≤ (l.length : ℚ) * c := by
  induction l with
  | nil => simp
  | cons b bs ih =>
    have hb := h b (List.mem_cons_self b bs)
    have ihs := ih fun x hx => h x (List.mem_cons_of_mem b hx)
    simp only [List.length_cons, List.sum_cons]
    push_cast
    linarith

theorem pyMin_le_pyMean {l : List ℚ} (h : l ≠ []) : pyMin l ≤ pyMean l := by
  have hlen : 0 < (l.length : ℚ) := by
    have hp : 0 < l.length := List.length_pos.mpr h
    exact_mod_cast hp
  rw [pyMean, le_div_iff hlen]
  have hs := length_mul_le_sum (pyMin l) l fun x hx => pyMin_le_of_mem hx
  linarith

theorem pyMean_le_pyMax {l : List ℚ} (h : l ≠ []) : pyMean l ≤ pyMax l := by
  have hlen : 0 < (l.length : ℚ) := by
    have hp : 0 < l.length := List.length_pos.mpr h
    exact_mod_cast hp
  rw [pyMean, div_le_iff hlen]
  have hs := sum_le_length_mul (pyMax l) l fun x hx => mem_le_pyMax hx
  linarith

/-! ## Claim C9: min ≤ avg ≤ max in every produced PingRecord. -/

/-- C9: for every nonempty set of latency samples parsed from one ping
run, the produced record satisfies
`min_latency_ms ≤ avg_latency_ms ≤ max_latency_ms`; the invariant
survives the two-decimal rounding because rounding is monotone and all
three statistics come from the same sample list. -/
theorem C9_ping_stats_ordered (now target : String) (lines : List String) (pd : PingData)
    (h : run_ping_test now target lines = some pd) :
    pd.min_latency_ms ≤ pd.avg_latency_ms ∧ pd.avg_latency_ms ≤ pd.max_latency_ms := by
  unfold run_ping_test at h
  by_cases hnil : extractLatencies lines = []
  · rw [if_pos hnil] at h
    cases h
  · rw [if_neg hnil] at h
    have hpd := Option.some_inj.mp h
    subst hpd
    exact ⟨round2_mono (pyMin_le_pyMean hnil), round2_mono (pyMean_le_pyMax hnil)⟩

set_option maxRecDepth 4000 in
/-- C9 witness: the invariant holds on a concrete two-sample transcript. -/
theorem C9_witness_concrete :
    cexPingData.min_latency_ms ≤ cexPingData.avg_latency_ms
    ∧ cexPingData.avg_latency_ms ≤ cexPingData.max_latency_ms :=
  C9_ping_stats_ordered "t0" "8.8.8.8" cexPingLines cexPingData
    (by with_unfolding_all decide)

/-! ## Claim C8: the packet-loss summary line parses to 10.0. -/

/-- C8: for every latency-probe output whose packet-loss summary is the
line `20 packets transmitted, 18 received, 10% packet loss` (no earlier
line mentions packet loss), the parsed loss is 10. -/
theorem C8_packet_loss_parses_ten (pre post : List String)
    (hpre : ∀ l ∈ pre, hasPacketLoss l = false) :
    parsePacketLoss (pre ++ pingSummaryLine :: post) = 10 := by
  induction pre with
  | nil =>
    show parsePacketLoss (pingSummaryLine :: post) = 10
    have h1 : hasPacketLoss pingSummaryLine = true := by with_unfolding_all decide
    have h2 : packetLossOf? pingSummaryLine = some 10 := by with_unfolding_all decide
    simp [parsePacketLoss, h1, h2]
  | cons l ls ih =>
    have hl : hasPacketLoss l = false := hpre l (List.mem_cons_self l ls)
    have ihs := ih fun a ha => hpre a (List.mem_cons_of_mem l ha)
    simpa [parsePacketLoss, hl] using ihs

/-- C8 witness: applied to a concrete full transcript. -/
theorem C8_witness_concrete :
    parsePacketLoss
      (["PING 8.8.8.8 (8.8.8.8) 56(84) bytes of data.",
        "64 bytes from 8.8.8.8: icmp_seq=1 ttl=115 time=17.3 ms"]
       ++ pingSummaryLine :: ["rtt min/avg/max/mdev = 17.3/17.3/17.3/0.0 ms"]) = 10 :=
  C8_packet_loss_parses_ten
    ["PING 8.8.8.8 (8.8.8.8) 56(84) bytes of data.",
     "64 bytes from 8.8.8.8: icmp_seq=1 ttl=115 time=17.3 ms"]
    ["rtt min/avg/max/mdev = 17.3/17.3/17.3/0.0 ms"]
    (by with_unfolding_all decide)

/-! ## Claim C7: interruptibility of the inter-cycle sleep. -/

theorem waitLoop_replicate_one (t : ℕ) :
    ∀ n e : ℕ, waitLoop t e (List.replicate n 1) = min (e + n) (max e t) := by
  intro n
  induction n with
  | zero =>
    intro e
    have he : waitLoop t e [] = e := rfl
    rw [List.replicate_zero, he]
    omega
  | succ k ih =>
    intro e
    rw [List.replicate_succ]
    by_cases h : t ≤ e
    · simp only [waitLoop, if_pos h]
      omega
    · simp only [waitLoop, if_neg h]
      rw [ih (e + 1)]
      omega

/-- C7 (amended): in the Windows monitor the inter-cycle wait is a
sequence of one-second sleeps with the running flag checked before each,
so when the flag clears `t` seconds into the wait the loop sleeps
exactly `min (interval) t` seconds — it exits at the next one-second
poll and never waits out the remainder of the interval.  (The Linux
monitor's wait is a single full-interval sleep; see the
counterexample.) -/
theorem C7_windows_wait_interruptible (m t : ℕ) :
    waitSlept (windowsWaitChunks m) t = min (m * 60) t
    ∧ waitSlept (windowsWaitChunks m) t ≤ t := by
  have h := waitLoop_replicate_one t (m * 60) 0
  constructor
  · rw [waitSlept, windowsWaitChunks, h]
    omega
  · rw [waitSlept, windowsWaitChunks, h]
    omega

/-- C7 counterexample: in the Linux monitor with the default 10-minute
interval, if the shutdown flag clears one second into the wait, the
loop still sleeps the full 600 seconds — not within about one second. -/
theorem C7_counterexample_linux_full_sleep :
    waitSlept (linuxWaitChunks 10) 1 = 600
    ∧ ¬ waitSlept (linuxWaitChunks 10) 1 ≤ 1 + 1 := by decide

/-! ## Claim C3: appended rows versus the header schema. -/

/-- C3 (the code violates it in the Linux monitor): the Linux monitor
initialises the store with a 24-column header, but every appended row
has 23 fields, and the positions disagree (`idle_latency_ms` /
`idle_jitter_ms` in header positions 3–4 versus `ping_ms` /
`server_name` in the written row).  The Windows monitor's header is
exactly the writer's field list, so its rows conform. -/
theorem C3_linux_row_does_not_match_header :
    linuxSpeedHeaders.length = 24
    ∧ (∀ sd : SpeedData, (linuxSpeedRow sd).length = 23)
    ∧ linuxSpeedHeaders[3]? = some "idle_latency_ms"
    ∧ linuxSpeedRowKeys[3]? = some "ping_ms"
    ∧ linuxSpeedHeaders[4]? = some "idle_jitter_ms"
    ∧ (∀ sd : SpeedData, (linuxSpeedRow sd)[4]? = some (Cell.str sd.server_name))
    ∧ winSpeedHeaders = linuxSpeedRowKeys
    ∧ (∀ sd : SpeedData, (winSpeedRow sd).length = winSpeedHeaders.length) :=
  ⟨by decide, fun sd => rfl, by decide, by decide, by decide, fun sd => rfl,
   by decide, fun sd => rfl⟩

/-! ## Lemmas: the stable descending sort and its head. -/

theorem length_pyInsertDescBy (key : α → ℚ) (x : α) (l : List α) :
    (pyInsertDescBy key x l).length = l.length + 1 := by
  induction l with
  | nil => rfl
  | cons y ys ih =>
    unfold pyInsertDescBy
    split_ifs
    · rfl
    · simp [List.length_cons, ih]

theorem length_pySortDescBy (key : α → ℚ) (l : List α) :
    (pySortDescBy key l).length = l.length := by
  induction l with
  | nil => rfl
  | cons x xs ih =>
    show (pyInsertDescBy key x (pySortDescBy key xs)).length = _
    rw [length_pyInsertDescBy, ih, List.length_cons]

theorem pySortDescBy_eq_nil_iff (key : α → ℚ) (l : List α) :
    pySortDescBy key l = [] ↔ l = [] := by
  constructor
  · intro h
    have hlen := length_pySortDescBy key l
    rw [h] at hlen
    exact List.length_eq_zero.mp hlen.symm
  · intro h
    subst h
    rfl

theorem head?_pyInsertDescBy (key : α → ℚ) (x : α) (l : List α) :
    (pyInsertDescBy key x l).head? =
      some (match l with
            | [] => x
            | y :: _ => if key y ≤ key x then x else y) := by
  cases l with
  | nil => rfl
  | cons y ys =>
    show (if key y ≤ key x then x :: y :: ys else y :: pyInsertDescBy key x ys).head? =
      some (if key y ≤ key x then x else y)
    split_ifs with h
    · rfl
    · rfl

theorem firstMaxBy_cons (key : α → ℚ) (x : α) (xs : List α) :
    firstMaxBy key (x :: xs) =
      match firstMaxBy key xs with
      | none => some x
      | some m => if key x < key m then some m else some x := rfl

theorem head?_pySortDescBy (key : α → ℚ) (l : List α) :
    (pySortDescBy key l).head? = firstMaxBy key l := by
  induction l with
  | nil => rfl
  | cons x xs ih =>
    show (pyInsertDescBy key x (pySortDescBy key xs)).head? = _
    cases hs : pySortDescBy key xs with
    | nil =>
      have hxs : xs = [] := (pySortDescBy_eq_nil_iff key xs).mp hs
      subst hxs
      rfl
    | cons y ys =>
      rw [hs, List.head?_cons] at ih
      rw [head?_pyInsertDescBy]
      show some (if key y ≤ key x then x else y) = _
      simp only [firstMaxBy_cons, ← ih]
      by_cases h : key y ≤ key x
      · rw [if_pos h, if_neg (not_lt.mpr h)]
      · rw [if_neg h, if_pos (lt_of_not_le h)]

theorem firstMaxBy_eq_none_iff (key : α → ℚ) (l : List α) :
    firstMaxBy key l = none ↔ l = [] := by
  cases l with
  | nil => simp [firstMaxBy]
  | cons x xs =>
    constructor
    · intro h
      exfalso
      rw [firstMaxBy_cons] at h
      cases hfm : firstMaxBy key xs with
      | none =>
        rw [hfm] at h
        simp at h
      | some m =>
        rw [hfm] at h
        by_cases hc : key x < key m
        · simp [hc] at h
        · simp [hc] at h
    · intro h
      cases h

theorem firstMaxBy_spec (key : α → ℚ) :
    ∀ (l : List α) (m : α), firstMaxBy key l = some m →
      m ∈ l ∧ (∀ a ∈ l, key a ≤ key m)
      ∧ ∃ i : ℕ, l[i]? = some m ∧ ∀ j : ℕ, j < i → ∀ q : α, l[j]? = some q → key q < key m := by
  intro l
  induction l with
  | nil =>
    intro m h
    cases h
  | cons x xs ih =>
    intro m h
    simp only [firstMaxBy_cons] at h
    cases hfm : firstMaxBy key xs with
    | none =>
      simp only [hfm, Option.some.injEq] at h
      subst h
      have hxs : xs = [] := (firstMaxBy_eq_none_iff key xs).mp hfm
      subst hxs
      refine ⟨List.mem_cons_self x [], ?_, 0, rfl, ?_⟩
      · intro a ha
        rcases List.mem_cons.mp ha with rfl | hmem
        · exact le_refl _
        · cases hmem
      · intro j hj q hq
        exact absurd hj (Nat.not_lt_zero j)
    | some mx =>
      simp only [hfm] at h
      obtain ⟨hmem, hmax, i, hi, hstrict⟩ := ih mx hfm
      by_cases hc : key x < key mx
      · rw [if_pos hc] at h
        simp only [Option.some.injEq] at h
        subst h
        refine ⟨List.mem_cons_of_mem x hmem, ?_, i + 1, ?_, ?_⟩
        · intro a ha
          rcases List.mem_cons.mp ha with rfl | hmem2
          · exact le_of_lt hc
          · exact hmax a hmem2
        · rw [List.getElem?_cons_succ]
          exact hi
        · intro j hj q hq
          cases j with
          | zero =>
            rw [List.getElem?_cons_zero, Option.some.injEq] at hq
            subst hq
            exact hc
          | succ k =>
            rw [List.getElem?_cons_succ] at hq
            exact hstrict k (by omega) q hq
      · rw [if_neg hc] at h
        simp only [Option.some.injEq] at h
        subst h
        refine ⟨List.mem_cons_self x xs, ?_, 0, List.getElem?_cons_zero, ?_⟩
        · intro a ha
          rcases List.mem_cons.mp ha with rfl | hmem2
          · exact le_refl _
          · exact le_trans (hmax a hmem2) (not_lt.mp hc)
        · intro j hj q hq
          exact absurd hj (Nat.not_lt_zero j)

/-! ## Claim C1 (amended): the selection winner is the earliest survivor
of maximal rounded score. -/

/-- C1 (amended): in a benchmarking selection run (cache empty or
`force_retest`) with at least one surviving candidate,
`find_best_server` returns the id of the survivor whose stored score —
the two-decimal rounding of `download_mbps - ping_ms / 10` — is maximal
among the survivors; among survivors of equal rounded score the one
earlier in the distance-ordered candidate list wins.  (The claim as
frozen, with the unrounded score, fails: see the counterexample.) -/
theorem C1_best_server_first_max_rounded_score
    (st : MonState) (servers : List Server) (probe : ℕ → Option SpeedRaw)
    (maxServersToTest : ℕ) (forceRetest : Bool)
    (hmode : forceRetest = true ∨ truthyId st.preferred = false)
    (hsurv : surviving servers probe maxServersToTest ≠ []) :
    ∃ best,
      firstMaxBy Perf.score (surviving servers probe maxServersToTest) = some best
      ∧ (find_best_server st servers probe maxServersToTest forceRetest).2.1
          = some best.server_id
      ∧ best ∈ surviving servers probe maxServersToTest
      ∧ (∀ p ∈ surviving servers probe maxServersToTest, p.score ≤ best.score)
      ∧ ∃ i : ℕ, (surviving servers probe maxServersToTest)[i]? = some best
          ∧ ∀ j : ℕ, j < i → ∀ q : Perf, (surviving servers probe maxServersToTest)[j]? = some q →
              q.score < best.score := by
  have hcond : ¬(forceRetest = false ∧ truthyId st.preferred = true) := by
    rcases hmode with h | h
    · intro hc
      rw [h] at hc
      cases hc.1
    · intro hc
      rw [h] at hc
      cases hc.2
  have hne : servers ≠ [] := by
    intro hserv
    exact hsurv (by rw [hserv]; simp [surviving])
  cases hsort : pySortDescBy Perf.score (surviving servers probe maxServersToTest) with
  | nil => exact absurd ((pySortDescBy_eq_nil_iff _ _).mp hsort) hsurv
  | cons best rest =>
    have hfm : firstMaxBy Perf.score (surviving servers probe maxServersToTest) = some best := by
      rw [← head?_pySortDescBy, hsort, List.head?_cons]
    obtain ⟨hmem, hmax, i, hi, hstrict⟩ := firstMaxBy_spec Perf.score _ best hfm
    refine ⟨best, hfm, ?_, hmem, hmax, i, hi, hstrict⟩
    unfold find_best_server
    rw [if_neg hcond, if_neg hne]
    simp only [if_neg hsurv, hsort]

set_option maxRecDepth 4000 in
/-- C1 counterexample to the claim as frozen: two surviving candidates
whose scores `download_mbps - ping_ms / 10` differ — under both the
raw-measurement reading (`rawScore`) and the record-field reading — yet
round to the same two-decimal stored score, so the earlier, strictly
worse candidate (id 1) wins the selection instead of the maximal-score
candidate (id 2). -/
theorem C1_counterexample_rounded_tie :
    (find_best_server fbSt0 cexServers cexProbe 5 true).2.1 = some 1
    ∧ (surviving cexServers cexProbe 5).map Perf.server_id = [1, 2]
    ∧ cexProbe 1 = some cexRawA ∧ cexProbe 2 = some cexRawB
    ∧ rawScore cexRawA < rawScore cexRawB
    ∧ (surviving cexServers cexProbe 5).map (fun p => p.download_mbps - p.ping_ms / 10)
        = [-(3 / 500), -(1 / 200)]
    ∧ (-(3 / 500) : ℚ) < -(1 / 200)
    ∧ (surviving cexServers cexProbe 5).map Perf.score = [0, 0] := by
  with_unfolding_all decide

set_option maxRecDepth 4000 in
/-- C1 witness: the amended theorem applied to the concrete two-server
selection run. -/
theorem C1_witness_concrete :
    ∃ best,
      firstMaxBy Perf.score (surviving cexServers cexProbe 5) = some best
      ∧ (find_best_server fbSt0 cexServers cexProbe 5 true).2.1 = some best.server_id
      ∧ best ∈ surviving cexServers cexProbe 5
      ∧ (∀ p ∈ surviving cexServers cexProbe 5, p.score ≤ best.score)
      ∧ ∃ i : ℕ, (surviving cexServers cexProbe 5)[i]? = some best
          ∧ ∀ j : ℕ, j < i → ∀ q : Perf, (surviving cexServers cexProbe 5)[j]? = some q →
              q.score < best.score :=
  C1_best_server_first_max_rounded_score fbSt0 cexServers cexProbe 5 true
    (Or.inl rfl) (by with_unfolding_all decide)

/-! ## Claim C2: a cache hit probes nothing and changes nothing. -/

/-- C2: whenever a preferred server id is cached (the id is set, i.e.
truthy), `find_best_server` with `force_retest = False` returns that
cached id with an empty action trace — no catalog listing, no benchmark
probe, no cache write — and the monitor state (preferred id and
in-memory test results) is unchanged. -/
theorem C2_cache_hit_returns_cached_id
    (st : MonState) (servers : List Server) (probe : ℕ → Option SpeedRaw)
    (maxServersToTest : ℕ) (h : truthyId st.preferred = true) :
    find_best_server st servers probe maxServersToTest false = (st, st.preferred, [])
    ∧ ∃ id, st.preferred = some id ∧ id ≠ 0 := by
  constructor
  · unfold find_best_server
    rw [if_pos ⟨rfl, h⟩]
  · cases hp : st.preferred with
    | none =>
      rw [hp] at h
      cases h
    | some i =>
      refine ⟨i, rfl, ?_⟩
      rw [hp] at h
      simpa [truthyId] using h

/-- C2 witness: a concrete cache hit returns the cached id 4242 and
leaves everything untouched. -/
theorem C2_witness_concrete :
    find_best_server fbStCached cexServers cexProbe 5 false
      = (fbStCached, some 4242, []) :=
  (C2_cache_hit_returns_cached_id fbStCached cexServers cexProbe 5 (by decide)).1

/-! ## Claims C4 and C5: record store migration. -/

theorem filterMap_eq_map_of_forall {α β : Type} (f : α → Option β) (g : α → β) :
    ∀ l : List α, (∀ a ∈ l, f a = some (g a)) → l.filterMap f = l.map g := by
  intro l
  induction l with
  | nil =>
    intro h
    rfl
  | cons b bs ih =>
    intro h
    simp only [List.filterMap_cons, h b (List.mem_cons_self b bs), List.map_cons]
    rw [ih fun a ha => h a (List.mem_cons_of_mem b ha)]

theorem ensure_cons (hdr : List String) (rows : List (List String)) :
    ensure_csv_has_server_id (hdr :: rows)
      = if hdr.length < 24 ∨ "idle_latency_ms" ∉ hdr then
          linuxNewHeaders :: rows.map (fun r => r ++ List.replicate (24 - r.length) "")
        else hdr :: rows := rfl

theorem migrate_cons (hdr : List String) (rows : List (List String)) :
    migrate_csv_if_needed (hdr :: rows)
      = if hdr.length < 23 then
          winSpeedHeaders :: rows.filterMap (fun row =>
            if 8 ≤ row.length then
              some ((if 9 ≤ row.length then row.take 9 else row ++ [""])
                ++ List.replicate 14 "0")
            else none)
        else hdr :: rows := rfl

/-- C4: migration is idempotent.  A file whose header is already the
current schema (24 columns including `idle_latency_ms` for the Linux
store; at least 23 columns for the Windows store) is left untouched, and
for every file migrating twice equals migrating once. -/
theorem C4_migration_idempotent :
    (∀ (hdr : List String) (rows : List (List String)),
        ¬(hdr.length < 24 ∨ "idle_latency_ms" ∉ hdr) →
        ensure_csv_has_server_id (hdr :: rows) = hdr :: rows)
    ∧ (∀ (hdr : List String) (rows : List (List String)),
        ¬ hdr.length < 23 →
        migrate_csv_if_needed (hdr :: rows) = hdr :: rows)
    ∧ (∀ file : List (List String),
        ensure_csv_has_server_id (ensure_csv_has_server_id file)
          = ensure_csv_has_server_id file)
    ∧ (∀ file : List (List String),
        migrate_csv_if_needed (migrate_csv_if_needed file)
          = migrate_csv_if_needed file) := by
  have hnoopL : ∀ (hdr : List String) (rows : List (List String)),
      ¬(hdr.length < 24 ∨ "idle_latency_ms" ∉ hdr) →
      ensure_csv_has_server_id (hdr :: rows) = hdr :: rows := by
    intro hdr rows h
    rw [ensure_cons, if_neg h]
  have hnoopW : ∀ (hdr : List String) (rows : List (List String)),
      ¬ hdr.length < 23 →
      migrate_csv_if_needed (hdr :: rows) = hdr :: rows := by
    intro hdr rows h
    rw [migrate_cons, if_neg h]
  refine ⟨hnoopL, hnoopW, ?_, ?_⟩
  · intro file
    cases file with
    | nil => rfl
    | cons hdr rows =>
      by_cases h : hdr.length < 24 ∨ "idle_latency_ms" ∉ hdr
      · have hL : ensure_csv_has_server_id (hdr :: rows)
            = linuxNewHeaders :: rows.map (fun r => r ++ List.replicate (24 - r.length) "") := by
          rw [ensure_cons, if_pos h]
        rw [hL]
        exact hnoopL _ _ (by decide)
      · rw [hnoopL hdr rows h, hnoopL hdr rows h]
  · intro file
    cases file with
    | nil => rfl
    | cons hdr rows =>
      by_cases h : hdr.length < 23
      · have hW : migrate_csv_if_needed (hdr :: rows)
            = winSpeedHeaders :: rows.filterMap (fun row =>
                if 8 ≤ row.length then
                  some ((if 9 ≤ row.length then row.take 9 else row ++ [""])
                    ++ List.replicate 14 "0")
                else none) := by
          rw [migrate_cons, if_pos h]
        rw [hW]
        exact hnoopW _ _ (by decide)
      · rw [hnoopW hdr rows h, hnoopW hdr rows h]

/-- C4 witness: a store already in the current schema is untouched by
migration, for both the Linux and the Windows store. -/
theorem C4_witness_concrete :
    ensure_csv_has_server_id [linuxNewHeaders] = [linuxNewHeaders]
    ∧ migrate_csv_if_needed [winSpeedHeaders] = [winSpeedHeaders] :=
  ⟨C4_migration_idempotent.1 linuxNewHeaders [] (by decide),
   C4_migration_idempotent.2.1 winSpeedHeaders [] (by decide)⟩

/-- C5: migration preserves the row count and the original field
values.  The Linux migration keeps every one of the N data rows,
right-padding it with empty-string defaults up to the 24-column header.
The Windows migration keeps every one of the N old-schema data rows (8
or 9 fields), pads it to 9 fields and appends the 14 new `0` columns,
producing 23-field rows whose first fields are the original values. -/
theorem C5_migration_preserves_rows :
    (∀ (hdr : List String) (rows : List (List String)),
        hdr.length < 24 ∨ "idle_latency_ms" ∉ hdr →
        ensure_csv_has_server_id (hdr :: rows)
          = linuxNewHeaders :: rows.map (fun r => r ++ List.replicate (24 - r.length) "")
        ∧ (ensure_csv_has_server_id (hdr :: rows)).length = rows.length + 1)
    ∧ (∀ (hdr : List String) (rows : List (List String)),
        hdr.length < 23 → (∀ r ∈ rows, r.length = 8 ∨ r.length = 9) →
        migrate_csv_if_needed (hdr :: rows)
          = winSpeedHeaders :: rows.map (fun r =>
              (if 9 ≤ r.length then r.take 9 else r ++ [""]) ++ List.replicate 14 "0")
        ∧ (migrate_csv_if_needed (hdr :: rows)).length = rows.length + 1
        ∧ ∀ r ∈ rows,
            ((if 9 ≤ r.length then r.take 9 else r ++ [""])
              ++ List.replicate 14 "0").take r.length = r
            ∧ ((if 9 ≤ r.length then r.take 9 else r ++ [""])
              ++ List.replicate 14 "0").length = 23) := by
  constructor
  · intro hdr rows h
    have he : ensure_csv_has_server_id (hdr :: rows)
        = linuxNewHeaders :: rows.map (fun r => r ++ List.replicate (24 - r.length) "") := by
      rw [ensure_cons, if_pos h]
    refine ⟨he, ?_⟩
    rw [he]
    simp
  · intro hdr rows h hrows
    have hm : migrate_csv_if_needed (hdr :: rows)
        = winSpeedHeaders :: rows.filterMap (fun row =>
            if 8 ≤ row.length then
              some ((if 9 ≤ row.length then row.take 9 else row ++ [""])
                ++ List.replicate 14 "0")
            else none) := by
      rw [migrate_cons, if_pos h]
    have hfm : rows.filterMap (fun row =>
          if 8 ≤ row.length then
            some ((if 9 ≤ row.length then row.take 9 else row ++ [""])
              ++ List.replicate 14 "0")
          else none)
        = rows.map (fun r =>
            (if 9 ≤ r.length then r.take 9 else r ++ [""]) ++ List.replicate 14 "0") := by
      apply filterMap_eq_map_of_forall
      intro r hr
      rcases hrows r hr with h8 | h9
      · rw [if_pos (by omega)]
      · rw [if_pos (by omega)]
    refine ⟨by rw [hm, hfm], by rw [hm, hfm]; simp, ?_⟩
    intro r hr
    rcases hrows r hr with h8 | h9
    · rw [if_neg (by omega)]
      constructor
      · rw [List.append_assoc]
        exact List.take_left r ([""] ++ List.replicate 14 "0")
      · simp [h8]
    · rw [if_pos (by omega)]
      have ht : r.take 9 = r := List.take_of_length_le (by omega)
      rw [ht]
      constructor
      · exact List.take_left r (List.replicate 14 "0")
      · simp [h9]

/-- C5 witness: a concrete two-row old-schema Windows store and a
one-row old-schema Linux store migrate to the padded form. -/
theorem C5_witness_concrete :
    migrate_csv_if_needed (cexOldHeaders :: [cexOldRow9, cexOldRow8])
      = winSpeedHeaders :: [cexOldRow9, cexOldRow8].map (fun r =>
          (if 9 ≤ r.length then r.take 9 else r ++ [""]) ++ List.replicate 14 "0")
    ∧ ensure_csv_has_server_id (cexOldHeaders :: [cexOldRow9])
        = linuxNewHeaders :: [cexOldRow9].map (fun r => r ++ List.replicate (24 - r.length) "") :=
  ⟨(C5_migration_preserves_rows.2 cexOldHeaders [cexOldRow9, cexOldRow8]
      (by decide) (by decide)).1,
   (C5_migration_preserves_rows.1 cexOldHeaders [cexOldRow9] (by decide)).1⟩

/-! ## Claim C6: pinned-probe failure falls back to one auto probe. -/

/-- C6: when the throughput probe is pinned to a (cached or set) server
id and that probe fails, `run_speedtest` retries exactly once,
immediately, with vendor auto-selection: the spawned-command trace is
exactly `[pinned id, auto]`.  If the retry succeeds and parses, the
measurement is kept and exactly one row is appended to the store; if the
retry also fails the cycle gives up with nothing appended. -/
theorem C6_pinned_failure_auto_retry (now : String) (id : ℕ) (fb : Option ℕ)
    (exec : SpeedtestCmd → Option Json) (hid : id ≠ 0)
    (hfail : exec (SpeedtestCmd.pinned id) = none) :
    (∀ (out : Json) (sd : SpeedData),
        exec SpeedtestCmd.auto = some out → extract_speed_data now out = some sd →
        run_speedtest now (some id) true fb exec
          = (some sd, [SpeedtestCmd.pinned id, SpeedtestCmd.auto], [linuxSpeedRow sd]))
    ∧ (exec SpeedtestCmd.auto = none →
        run_speedtest now (some id) true fb exec
          = (none, [SpeedtestCmd.pinned id, SpeedtestCmd.auto], [])) := by
  have htr : truthyId (some id) = true := by
    simp [truthyId, hid]
  constructor
  · intro out sd hout hsd
    unfold run_speedtest
    simp only [htr, if_true, ite_true, ite_false, Bool.true_eq_false, Option.getD_some,
      hfail, hout, speedtestFinish, hsd]
  · intro hauto
    unfold run_speedtest
    simp only [htr, if_true, ite_true, ite_false, Bool.true_eq_false, Option.getD_some,
      hfail, hauto]

set_option maxRecDepth 4000 in
/-- C6 witness: a concrete pinned probe that fails, with a succeeding
auto retry whose output parses to `cexSd`; one row is appended. -/
theorem C6_witness_concrete :
    run_speedtest "t0" (some 4242) true none cexExec
      = (some cexSd, [SpeedtestCmd.pinned 4242, SpeedtestCmd.auto], [linuxSpeedRow cexSd]) :=
  (C6_pinned_failure_auto_retry "t0" 4242 none cexExec (by decide) rfl).1 cexJson cexSd rfl
    (by with_unfolding_all decide)

/-! ## Claim C10: optional JSON fields default instead of discarding. -/

/-- C10: for every well-formed speedtest JSON whose required fields are
present, the extraction succeeds even with every optional field absent:
packet loss, idle jitter, the per-phase latency statistics and byte
counts default to `0`, the result url defaults to `""` (see
`requiredOnlyData`), and the measurement is kept — the finishing step
still appends exactly one row. -/
theorem C10_optional_fields_default (now : String) (bwD bwU lat sid : ℚ)
    (sname sloc scountry ispName eip : String) :
    extract_speed_data now (requiredOnlyJson bwD bwU lat sid sname sloc scountry ispName eip)
      = some (requiredOnlyData now bwD bwU lat sid sname sloc scountry ispName eip)
    ∧ ∀ trace : List SpeedtestCmd,
        speedtestFinish now (requiredOnlyJson bwD bwU lat sid sname sloc scountry ispName eip)
          trace
        = (some (requiredOnlyData now bwD bwU lat sid sname sloc scountry ispName eip), trace,
           [linuxSpeedRow (requiredOnlyData now bwD bwU lat sid sname sloc scountry ispName eip)]) := by
  have hmain : extract_speed_data now
      (requiredOnlyJson bwD bwU lat sid sname sloc scountry ispName eip)
      = some (requiredOnlyData now bwD bwU lat sid sname sloc scountry ispName eip) := by
    simp [extract_speed_data, requiredOnlyJson, requiredOnlyData, Json.get?, jlookup,
      Json.num?, Json.str?, Json.getNumD, Json.getStrD, Json.getObjD,
      Json.phaseSection?, Json.phaseLatency?, Json.pingSection?, Json.serverIdent?,
      Json.identSection?, Json.miscSection?, round2_zero]
  refine ⟨hmain, fun trace => ?_⟩
  unfold speedtestFinish
  simp only [hmain]

end NM
